import Mathlib

/-!
Verification of the `paw` dotfiles manager's symlink lifecycle engine
(`src/core/symlinks.ts`, `src/core/prompt.ts`, `src/core/backup.ts`,
`src/core/os.ts`) against its natural-language specification.

The TypeScript code is shallowly embedded: the filesystem is an explicit
association list from absolute paths to nodes, asynchronous filesystem
primitives (`lstat`, `stat`, `readlink`, `rename`, `unlink`, `mkdir`,
`symlink`) become pure functions on that state, the interactive prompt
reads from an explicit script of key presses, and logging is accumulated
into an explicit list of events.
-/

namespace Paw

/-! ## Character and string utilities

All string manipulation is done on `List Char` via `String.data`, with
structurally recursive definitions so that concrete runs reduce inside
the kernel (`decide` / `rfl`). -/

/-- Split a list of characters on a separator, dropping nothing. -/
def splitOnChar (sep : Char) : List Char → List (List Char)
  | [] => [[]]
  | c :: cs =>
    let rest := splitOnChar sep cs
    if c = sep then [] :: rest
    else match rest with
      | [] => [[c]]
      | r :: rs => (c :: r) :: rs

/-- Path segments of a path string: split on `/` and drop empty segments. -/
def splitSegs (p : String) : List String :=
  ((splitOnChar '/' p.data).filter (fun s => ¬ s.isEmpty)).map (fun s => ⟨s⟩)

/-- Normalization of an absolute path's segment list, as performed by
Node's `path.resolve`: `.` segments are dropped and `..` pops the last
accumulated segment (or is dropped at the root). -/
def normalizeAbs (segs : List String) : List String :=
  segs.foldl
    (fun acc seg =>
      if seg = "." then acc
      else if seg = ".." then acc.dropLast
      else acc ++ [seg])
    []

/-- Render an absolute path from its segment list. -/
def renderAbs (segs : List String) : String :=
  "/" ++ String.intercalate "/" segs

/-- Model of Node `path.resolve(base, rel)` for an absolute `base`:
an absolute `rel` wins outright, otherwise `rel` is joined onto `base`;
the result is normalized. -/
def joinResolve (base rel : String) : String :=
  let segs :=
    if rel.data.head? = some '/' then splitSegs rel
    else splitSegs base ++ splitSegs rel
  renderAbs (normalizeAbs segs)

/-- Model of Node `path.dirname` for absolute paths. -/
def dirname (p : String) : String :=
  renderAbs ((splitSegs p).dropLast)

/-- List-level prefix test (`Boolean`, structurally recursive). -/
def listPrefixOf : List Char → List Char → Bool
  | [], _ => true
  | _ :: _, [] => false
  | a :: as, b :: bs => a = b && listPrefixOf as bs

/-- Model of JavaScript `String.prototype.startsWith`. -/
def strStartsWith (s pre : String) : Bool :=
  listPrefixOf pre.data s.data

/-- Drop the first `n` characters of a string. -/
def strDrop (s : String) (n : Nat) : String :=
  ⟨s.data.drop n⟩

/-- Strip one trailing `/` if present, as `validatePathWithinBase` does
with `endsWith("/") ? slice(0, -1) : ...`. -/
def stripTrailingSlash (p : String) : String :=
  match p.data.reverse with
  | '/' :: rest => ⟨rest.reverse⟩
  | _ => p

/-! ## Decimal rendering and parsing of numbers

`createBackup` renders `Date.now()` with JavaScript number-to-string
(decimal digits for integer timestamps); `findBackupsInDir` parses the
digits back with `parseInt(_, 10)`. -/

/-- The decimal digit character for `n % 10`. -/
def digitCharRaw : Nat → Char
  | 0 => '0' | 1 => '1' | 2 => '2' | 3 => '3' | 4 => '4'
  | 5 => '5' | 6 => '6' | 7 => '7' | 8 => '8' | _ => '9'

/-- Numeric value of a decimal digit character. -/
def digitVal (c : Char) : Nat := c.toNat - 48

/-- Decimal digit test, the semantics of the regex class `\d` (exactly
`[0-9]` in JavaScript). -/
def isDigitCh (c : Char) : Bool := '0' ≤ c && c ≤ '9'

/-- JavaScript line terminators, which `.` in a regex without the `s`
flag does not match: LF, CR, U+2028, U+2029. -/
def isLineTerm (c : Char) : Bool :=
  c = '\n' || c = '\r' || c.toNat = 0x2028 || c.toNat = 0x2029

/-- Fuel-driven decimal rendering (structural recursion on fuel). -/
def natDigitsAux : Nat → Nat → List Char
  | 0, _ => []
  | fuel + 1, n =>
    if n < 10 then [digitCharRaw n]
    else natDigitsAux fuel (n / 10) ++ [digitCharRaw (n % 10)]

/-- Decimal digits of `n`, most significant first. -/
def natDigits (n : Nat) : List Char := natDigitsAux (n + 1) n

/-- Decimal rendering of a natural number as a string. -/
def natStr (n : Nat) : String := ⟨natDigits n⟩

/-- Model of `parseInt(s, 10)` on a string of decimal digits. -/
def digitsToNat (l : List Char) : Nat :=
  l.foldl (fun acc c => acc * 10 + digitVal c) 0

/-! ## Data model (`src/types/index.ts`) -/

/-- `Platform = "darwin" | "linux"`. -/
inductive Platform
  | darwin
  | linux
deriving DecidableEq, Repr

/-- `SymlinkCondition`: optional hostname glob and optional platform. -/
structure SymlinkCondition where
  hostname : Option String
  platform : Option Platform
deriving DecidableEq, Repr

/-- `SymlinkTarget = string | { target, when }`. -/
inductive SymlinkTarget
  | plain (target : String)
  | conditional (target : String) (whenCond : SymlinkCondition)
deriving DecidableEq, Repr

/-- `SymlinkStatus`. -/
inductive Status
  | linked
  | missing
  | conflict
  | backup
  | sourceMissing
deriving DecidableEq, Repr

/-- `SymlinkState`: the per-entry result record. -/
structure SymlinkState where
  source : String
  target : String
  status : Status
  backupPath : Option String
deriving DecidableEq, Repr

/-- `SymlinkEntry` as persisted in the last-run file. -/
structure SymlinkEntry where
  source : String
  target : String
deriving DecidableEq, Repr

/-- `BackupEntry`. -/
structure BackupEntry where
  original : String
  backup : String
  timestamp : Nat
deriving DecidableEq, Repr

/-- `LastRunState`. -/
structure LastRun where
  timestamp : String
  command : String
  backups : List BackupEntry
  symlinks : List SymlinkEntry
deriving DecidableEq, Repr

/-- `InstallOptions` flags consumed by the symlink engine. -/
structure InstallOptions where
  dryRun : Bool
  force : Bool
  verbose : Bool
  skipPackages : Bool
  noInteractive : Bool
deriving DecidableEq, Repr

/-- `ConflictChoice.action`. -/
inductive ConflictAction
  | skip
  | backup
  | overwrite
  | abort
deriving DecidableEq, Repr

/-- `ConflictChoice`; the optional `applyToAll` flag is modelled as a
`Bool` (absent ≡ `false`, matching JavaScript truthiness tests). -/
structure ConflictChoice where
  action : ConflictAction
  applyToAll : Bool
deriving DecidableEq, Repr

/-- Ambient machine values read by the engine: home directory and config
directory (absolute paths), platform, hostname, whether stdin is a TTY
(`process.stdin.isTTY`), the clock (`Date.now()` in epoch millis) and
its ISO rendering (`new Date().toISOString()`). -/
structure Env where
  home : String
  configDir : String
  platform : Platform
  hostname : String
  tty : Bool
  now : Nat
  nowIso : String
deriving DecidableEq, Repr

/-! ## Filesystem model

The filesystem is an association list from absolute paths to nodes.
The content of the persisted run-state file matters only through
`JSON.parse`, an external primitive: file contents are therefore either
plain bytes, a well-formed serialized `LastRun` (what
`JSON.stringify` produces and `JSON.parse` recovers), or unparseable
garbage. -/

/-- Contents of a regular file. -/
inductive FileData
  | bytes (s : String)
  | runJson (r : LastRun)
  | garbage
deriving DecidableEq, Repr

/-- A filesystem node. -/
inductive FsNode
  | file (d : FileData)
  | dir
  | symlink (target : String)
deriving DecidableEq, Repr

/-- The filesystem: first match wins on lookup. -/
abbrev Fs := List (String × FsNode)

/-- Look a path up in the filesystem. -/
def lookupF (fs : Fs) (p : String) : Option FsNode :=
  match fs with
  | [] => none
  | (q, n) :: rest => if q = p then some n else lookupF rest p

/-- Remove a path (model of `unlink`; removing an absent path is the
identity, matching call sites that catch the `ENOENT` rejection). -/
def removeF (fs : Fs) (p : String) : Fs :=
  match fs with
  | [] => []
  | (q, n) :: rest => if q = p then removeF rest p else (q, n) :: removeF rest p

/-- Insert or overwrite a node at a path. -/
def setF (fs : Fs) (p : String) (n : FsNode) : Fs :=
  (p, n) :: removeF fs p

/-- Model of `rename(from, to)`: fails (`none`) when the origin is
absent, otherwise moves the node, overwriting any destination. -/
def renameF (fs : Fs) (src dst : String) : Option Fs :=
  match lookupF fs src with
  | none => none
  | some n => some (setF (removeF fs src) dst n)

/-- Model of `lstat`-based existence (`fileOrLinkExists`). -/
def fileOrLinkExists (fs : Fs) (p : String) : Bool :=
  (lookupF fs p).isSome

/-- Model of `stat`, following symlink chains with fuel. -/
def statFuel (fs : Fs) : Nat → String → Bool
  | 0, _ => false
  | fuel + 1, p =>
    match lookupF fs p with
    | some (.symlink t) => statFuel fs fuel (joinResolve (dirname p) t)
    | some _ => true
    | none => false

/-- `stat(p)` succeeds: the path resolves to an existing non-link node. -/
def statEx (fs : Fs) (p : String) : Bool :=
  statFuel fs (fs.length + 1) p

/-- Read a file's contents through symlinks (model of `Bun.file(p)`
reads). -/
def readFileData (fs : Fs) : Nat → String → Option FileData
  | 0, _ => none
  | fuel + 1, p =>
    match lookupF fs p with
    | some (.file d) => some d
    | some (.symlink t) => readFileData fs fuel (joinResolve (dirname p) t)
    | _ => none

/-- Model of `mkdir(dir, { recursive: true })`: inserts a directory node
at every missing ancestor of `p` (existing nodes are left in place). -/
def mkdirRec (fs : Fs) (p : String) : Fs :=
  let segs := splitSegs p
  (List.range segs.length).foldl
    (fun f i =>
      let d := renderAbs (segs.take (i + 1))
      if (lookupF f d).isSome then f else setF f d .dir)
    fs

/-! ## Logging

Logger calls become events in an accumulated list; a message is rendered
exactly as the source builds it, with two simplifications: the
parse-failure warning of `loadLastRunState` interpolates the caught
exception object, rendered here as the fixed message text alone, and
purely decorative `header`/`subheader`/`newline`/`debug` calls are not
recorded. -/

/-- One logger call. -/
inductive LogMsg
  | info (s : String)
  | warn (s : String)
  | errorMsg (s : String)
  | skip (s : String)
  | dryRun (s : String)
  | success (s : String)
  | link (src tgt : String)
deriving DecidableEq, Repr

/-! ## `src/core/os.ts` -/

/-- `contractPath`: replace a leading home-directory prefix by `~`
(`path.replace(home, "~")` guarded by `path.startsWith(home)`). -/
def contractPath (env : Env) (p : String) : String :=
  if strStartsWith p env.home then "~" ++ strDrop p env.home.data.length else p

/-- The message of the error thrown by `validatePathWithinBase`. -/
def integrityMsg (resolvedPath allowedBase context : String) : String :=
  "Security error: " ++ context ++ " path escapes allowed directory.\n  Path: "
    ++ resolvedPath ++ "\n  Allowed: " ++ allowedBase

/-- The boolean test of `validatePathWithinBase`: after stripping one
trailing slash from each side, the path must equal the base or extend it
past a `/`. -/
def validPathWithinBase (resolvedPath allowedBase : String) : Bool :=
  let np := stripTrailingSlash resolvedPath
  let nb := stripTrailingSlash allowedBase
  np = nb || strStartsWith np (nb ++ "/")

/-- Suffix-of-pattern matcher for the regex built by `matchGlob`: `*`
becomes `.*` and `?` becomes `.`, where the regex is compiled without
the `s` flag, so `.` matches any character except a line terminator;
every other pattern character is escaped and matches itself literally.
`globStar k v` tries the continuation `k` after consuming any run of
non-line-terminator characters, the semantics of a backtracking
`.*`. -/
def globStar (k : List Char → Bool) : List Char → Bool
  | [] => k []
  | c :: vs => k (c :: vs) || (!(isLineTerm c) && globStar k vs)

/-- Matcher for the whole anchored pattern (`^...$`): `?` is `.` (one
non-line-terminator character), any other non-`*` character — a literal
line terminator in the pattern included, since the escape step leaves it
a literal — matches only itself. -/
def globChars : List Char → List Char → Bool
  | [], v => v.isEmpty
  | p :: ps, v =>
    if p = '*' then globStar (globChars ps) v
    else
      match v with
      | [] => false
      | d :: vs => (if p = '?' then !(isLineTerm d) else (p = d : Bool)) && globChars ps vs

/-- `matchGlob(value, pattern)` from `src/core/os.ts`. -/
def matchGlob (value pattern : String) : Bool :=
  globChars pattern.data value.data

/-- Display name of a platform, as interpolated into reason strings. -/
def platformName : Platform → String
  | .darwin => "darwin"
  | .linux => "linux"

/-! ## `src/core/prompt.ts` -/

/-- `isInteractive()`: `process.stdin.isTTY === true`. -/
def isInteractive (env : Env) : Bool := env.tty

/-- `promptConflict`, driven by a script of raw key presses. `readChar`
lowercases the raw input (`data.toString().toLowerCase()`) before the
switch; the switch itself is translated verbatim, including the
`case "S"` / `case "B"` arms. `d` shows a diff and re-prompts; an
unrecognized key re-prompts; an exhausted script models a closed stdin
(the `readChar` promise rejects). -/
def promptConflict : List Char → Option (ConflictChoice × List Char)
  | [] => none
  | raw :: rest =>
    let ch := raw.toLower
    if ch = 's' then some (⟨.skip, false⟩, rest)
    else if ch = 'b' then some (⟨.backup, false⟩, rest)
    else if ch = 'o' then some (⟨.overwrite, false⟩, rest)
    else if ch = 'd' then promptConflict rest
    else if ch = 'a' then some (⟨.abort, false⟩, rest)
    else if ch = 'S' then some (⟨.skip, true⟩, rest)
    else if ch = 'B' then some (⟨.backup, true⟩, rest)
    else promptConflict rest

/-! ## `src/core/symlinks.ts` -/

/-- Errors that abort a whole run (`throw` sites). -/
inductive RunErr
  | integrity (msg : String)
  | aborted (msg : String)
  | stdinClosed
  | ioError
deriving DecidableEq, Repr

/-- `shouldCreateSymlink(condition)`: platform predicate first, then
hostname glob; no condition always applies. Returns the `create` flag
and the optional reason string. -/
def shouldCreateSymlink (env : Env) (condition : Option SymlinkCondition) :
    Bool × Option String :=
  match condition with
  | none => (true, none)
  | some c =>
    match c.platform with
    | some want =>
      if env.platform ≠ want then
        (false, some ("platform " ++ platformName want ++ " ≠ " ++ platformName env.platform))
      else
        match c.hostname with
        | some pat =>
          if ¬ matchGlob env.hostname pat then
            (false, some ("hostname " ++ pat ++ " ≠ " ++ env.hostname))
          else (true, none)
        | none => (true, none)
    | none =>
      match c.hostname with
      | some pat =>
        if ¬ matchGlob env.hostname pat then
          (false, some ("hostname " ++ pat ++ " ≠ " ++ env.hostname))
        else (true, none)
      | none => (true, none)

/-- `normalizeSymlinkTarget`. -/
def normalizeSymlinkTarget : SymlinkTarget → String × Option SymlinkCondition
  | .plain t => (t, none)
  | .conditional t c => (t, some c)

/-- `isSymlinkTo(linkPath, expectedTarget)`: the node is a symlink and
its stored value, resolved against the link's own directory, equals the
expected target — or equals it literally. -/
def isSymlinkTo (fs : Fs) (linkPath expectedTarget : String) : Bool :=
  match lookupF fs linkPath with
  | some (.symlink actual) =>
    joinResolve (dirname linkPath) actual = expectedTarget || actual = expectedTarget
  | _ => false

/-- The backup path produced by `createBackup`:
`` `${filePath}.backup.${timestamp}` ``. -/
def backupName (filePath : String) (timestamp : Nat) : String :=
  filePath ++ ".backup." ++ natStr timestamp

/-- Result of processing one entry: updated filesystem, remaining prompt
script, emitted log, and either a run-fatal error or the entry's state
together with a sticky choice to latch. -/
structure StepOut where
  fs : Fs
  script : List Char
  log : List LogMsg
  result : Except RunErr (SymlinkState × Option ConflictChoice)
deriving Repr

/-- `finishSymlink`: ensure the parent directory, create the link (both
elided under dry-run), and set status `linked` unless it is already
`backup`. -/
def finishSymlink (env : Env) (opts : InstallOptions) (source target : String)
    (st : SymlinkState) (fs : Fs) : Fs × List LogMsg × SymlinkState :=
  let targetDir := dirname target
  let fsLog :=
    if opts.dryRun then
      (fs, [LogMsg.dryRun ("Would create directory: " ++ contractPath env targetDir),
            LogMsg.dryRun ("Would symlink: " ++ contractPath env target ++ " → " ++ contractPath env source)])
    else
      (setF (mkdirRec fs targetDir) target (.symlink source),
       [LogMsg.link (contractPath env source) (contractPath env target)])
  let st1 := if st.status = .backup then st else { st with status := .linked }
  (fsLog.1, fsLog.2, st1)

/-- The `switch (choice.action)` block of `createSymlink` followed by the
shared fall-through to `finishSymlink`; `nextChoice` carries the choice
back to the loop exactly when `applyToAll` is set. -/
def applyChoice (env : Env) (opts : InstallOptions) (source target : String)
    (fs : Fs) (script : List Char) (choice : ConflictChoice) : StepOut :=
  match choice.action with
  | .abort => ⟨fs, script, [], .error (.aborted "Aborted by user")⟩
  | .skip =>
    ⟨fs, script, [LogMsg.skip (contractPath env target ++ " (skipped by user)")],
      .ok (⟨source, target, .conflict, none⟩, if choice.applyToAll then some choice else none)⟩
  | .overwrite =>
    let st : SymlinkState := ⟨source, target, .missing, none⟩
    if opts.dryRun then
      let f := finishSymlink env opts source target st fs
      ⟨f.1, script, LogMsg.dryRun ("Would overwrite " ++ contractPath env target ++ " (no backup)") :: f.2.1,
        .ok (f.2.2, if choice.applyToAll then some choice else none)⟩
    else
      let f := finishSymlink env opts source target st (removeF fs target)
      ⟨f.1, script, LogMsg.info ("Removed " ++ contractPath env target ++ " (no backup)") :: f.2.1,
        .ok (f.2.2, if choice.applyToAll then some choice else none)⟩
  | .backup =>
    if opts.dryRun then
      let st : SymlinkState := ⟨source, target, .backup, none⟩
      let f := finishSymlink env opts source target st fs
      ⟨f.1, script, LogMsg.dryRun ("Would backup " ++ contractPath env target) :: f.2.1,
        .ok (f.2.2, if choice.applyToAll then some choice else none)⟩
    else
      let bp := backupName target env.now
      match renameF fs target bp with
      | none => ⟨fs, script, [], .error .ioError⟩
      | some fs1 =>
        let st : SymlinkState := ⟨source, target, .backup, some bp⟩
        let f := finishSymlink env opts source target st fs1
        ⟨f.1, script,
          LogMsg.info ("Backed up " ++ contractPath env target ++ " to " ++ contractPath env bp) :: f.2.1,
          .ok (f.2.2, if choice.applyToAll then some choice else none)⟩

/-- `createSymlink(source, target, options, pendingChoice)`. -/
def createSymlinkOne (env : Env) (opts : InstallOptions) (source target : String)
    (fs : Fs) (script : List Char) (pending : Option ConflictChoice) : StepOut :=
  if ¬ statEx fs source then
    ⟨fs, script, [LogMsg.errorMsg ("Source file not found: " ++ contractPath env source)],
      .ok (⟨source, target, .sourceMissing, none⟩, none)⟩
  else if fileOrLinkExists fs target then
    if isSymlinkTo fs target source then
      ⟨fs, script, [LogMsg.skip (contractPath env target ++ " (already linked)")],
        .ok (⟨source, target, .linked, none⟩, none)⟩
    else
      match pending with
      | some choice => applyChoice env opts source target fs script choice
      | none =>
        if opts.force then applyChoice env opts source target fs script ⟨.backup, false⟩
        else if opts.noInteractive || ¬ isInteractive env then
          ⟨fs, script,
            [LogMsg.warn ("Conflict: " ++ contractPath env target ++ " exists (use --force to backup and replace)")],
            .ok (⟨source, target, .conflict, none⟩, none)⟩
        else
          match promptConflict script with
          | none => ⟨fs, script, [], .error .stdinClosed⟩
          | some (choice, rest) => applyChoice env opts source target fs rest choice
  else
    let f := finishSymlink env opts source target ⟨source, target, .missing, none⟩ fs
    ⟨f.1, script, f.2.1, .ok (f.2.2, none)⟩

/-- A configured entry: `[sourceRel, targetConfig]` of
`Object.entries(symlinks)`. -/
abbrev Entry := String × SymlinkTarget

/-- Resolved source path of an entry (`resolveConfigPath(sourceRel)`). -/
def entrySource (env : Env) (e : Entry) : String :=
  joinResolve env.configDir e.1

/-- Resolved target path of an entry (`resolve(homeDir, targetPath)`). -/
def entryTarget (env : Env) (e : Entry) : String :=
  joinResolve env.home (normalizeSymlinkTarget e.2).1

/-- The condition evaluation of an entry. -/
def entryDecision (env : Env) (e : Entry) : Bool × Option String :=
  shouldCreateSymlink env (normalizeSymlinkTarget e.2).2

/-- The loop body of `createSymlinks` for one entry: condition check,
then path-traversal validation, then `createSymlink`. -/
def processEntry (env : Env) (opts : InstallOptions) (e : Entry)
    (fs : Fs) (script : List Char) (pending : Option ConflictChoice) : StepOut :=
  let source := entrySource env e
  let target := entryTarget env e
  let d := entryDecision env e
  if ¬ d.1 then
    ⟨fs, script,
      [LogMsg.skip (contractPath env target ++ " (skipped: " ++ d.2.getD "" ++ ")")],
      .ok (⟨source, target, .missing, none⟩, none)⟩
  else if ¬ validPathWithinBase target env.home then
    ⟨fs, script, [], .error (.integrity (integrityMsg target env.home "Symlink target"))⟩
  else
    createSymlinkOne env opts source target fs script pending

/-- Result of a whole run. -/
structure RunOut where
  fs : Fs
  script : List Char
  pending : Option ConflictChoice
  log : List LogMsg
  states : Except RunErr (List SymlinkState)
deriving Repr

/-- The `for` loop of `createSymlinks`, threading the filesystem, the
prompt script and the latched sticky choice. -/
def runLoop (env : Env) (opts : InstallOptions) :
    List Entry → Fs → List Char → Option ConflictChoice → RunOut
  | [], fs, script, pending => ⟨fs, script, pending, [], .ok []⟩
  | e :: rest, fs, script, pending =>
    let s := processEntry env opts e fs script pending
    match s.result with
    | .error err => ⟨s.fs, s.script, pending, s.log, .error err⟩
    | .ok (st, nextChoice) =>
      let pending1 := match nextChoice with
        | some c => some c
        | none => pending
      let r := runLoop env opts rest s.fs s.script pending1
      ⟨r.fs, r.script, r.pending, s.log ++ r.log, r.states.map (st :: ·)⟩

/-- `createSymlinks(symlinks, options)`. -/
def createSymlinks (env : Env) (opts : InstallOptions) (entries : List Entry)
    (fs : Fs) (script : List Char) : RunOut :=
  runLoop env opts entries fs script none

/-- `statesToEntries(states)`. -/
def statesToEntries (states : List SymlinkState) : List SymlinkEntry :=
  (states.filter (fun s => s.status = .linked)).map (fun s => ⟨s.source, s.target⟩)

/-! ## `src/core/backup.ts` -/

/-- `LAST_RUN_FILE`, resolved against the home directory. -/
def lastRunPath (env : Env) : String :=
  joinResolve env.home ".dotfiles-last-run.json"

/-- `saveLastRunState(state)`: `Bun.write(path, JSON.stringify(state))`. -/
def saveLastRunState (env : Env) (fs : Fs) (st : LastRun) : Fs :=
  setF fs (lastRunPath env) (.file (.runJson st))

/-- `loadLastRunState()`: `null` when the file does not exist; a parse
failure is caught, warned about, and also yields `null`. -/
def loadLastRunState (env : Env) (fs : Fs) : Option LastRun × List LogMsg :=
  match readFileData fs (fs.length + 1) (lastRunPath env) with
  | none => (none, [])
  | some (.runJson r) => (some r, [])
  | some _ => (none, [LogMsg.warn "Failed to parse last run state"])

/-- `BACKUP_PATTERN = /^(.+)\.backup\.(\d+)$/` applied to a name.

The greedy `(.+)` takes the longest prefix that leaves `.backup.` plus a
nonempty all-digit remainder. An equivalent direct reading: the digit
group must be the maximal trailing digit run (a shorter group would be
preceded by a digit where the pattern demands the final `.` of
`.backup.`, and a longer one would put a digit where `.` of the literal
stands), the eight characters before it must be `.backup.`, and the
nonempty prefix before that — matched by `.+` — may not contain a line
terminator. -/
def parseBackupChars (name : List Char) : Option (List Char × Nat) :=
  let rev := name.reverse
  let digitsRev := rev.takeWhile isDigitCh
  let restRev := rev.dropWhile isDigitCh
  if digitsRev.isEmpty then none
  else if listPrefixOf (".backup.".data.reverse) restRev then
    let origRev := restRev.drop 8
    if origRev.isEmpty then none
    else if origRev.any isLineTerm then none
    else some (origRev.reverse, digitsToNat digitsRev.reverse)
  else none

/-- String-level wrapper for the backup-name parse. -/
def parseBackup (name : String) : Option (String × Nat) :=
  (parseBackupChars name.data).map (fun pr => (⟨pr.1⟩, pr.2))

/-- `findBackupsInDir(dir)` over a directory listing: every entry whose
name matches the backup pattern contributes a `BackupEntry` with both
paths resolved against the directory. -/
def findBackupsInDir (dir : String) (names : List String) : List BackupEntry :=
  names.filterMap (fun n =>
    (parseBackup n).map (fun pr =>
      { original := joinResolve dir pr.1
        backup := joinResolve dir n
        timestamp := pr.2 }))

/-- Result of `rollback`. -/
structure RollbackRes where
  fs : Fs
  log : List LogMsg
  ok : Bool
deriving Repr

/-- One iteration of the symlink-removal loop of `rollback`: the
recorded target is unlinked, a missing target being tolerated
(`catch` → skip log). -/
def removeLinkStep (env : Env) (opts : InstallOptions) (fs : Fs)
    (e : SymlinkEntry) : Fs × List LogMsg :=
  if opts.dryRun then
    (fs, [LogMsg.dryRun ("Would remove symlink: " ++ contractPath env e.target)])
  else if fileOrLinkExists fs e.target then
    (removeF fs e.target, [LogMsg.success ("Removed: " ++ contractPath env e.target)])
  else
    (fs, [LogMsg.skip (contractPath env e.target ++ " (not found)")])

/-- The symlink-removal loop of `rollback`. -/
def removeLinksFold (env : Env) (opts : InstallOptions) :
    List SymlinkEntry → Fs → List LogMsg → Fs × List LogMsg
  | [], fs, log => (fs, log)
  | e :: es, fs, log =>
    let s := removeLinkStep env opts fs e
    removeLinksFold env opts es s.1 (log ++ s.2)

/-- One iteration of the backup-restoration loop of `rollback`: the
recorded backup is moved back over its original path; a failed `rename`
is reported, not raised. -/
def restoreBackupStep (env : Env) (opts : InstallOptions) (fs : Fs)
    (b : BackupEntry) : Fs × List LogMsg :=
  if opts.dryRun then
    (fs, [LogMsg.dryRun ("Would restore: " ++ contractPath env b.original)])
  else
    match renameF fs b.backup b.original with
    | some fs1 => (fs1, [LogMsg.success ("Restored: " ++ contractPath env b.original)])
    | none => (fs, [LogMsg.errorMsg ("Failed to restore " ++ contractPath env b.original)])

/-- The backup-restoration loop of `rollback` (best effort: the loop
continues after a failed entry). -/
def restoreBackupsFold (env : Env) (opts : InstallOptions) :
    List BackupEntry → Fs → List LogMsg → Fs × List LogMsg
  | [], fs, log => (fs, log)
  | b :: bs, fs, log =>
    let s := restoreBackupStep env opts fs b
    restoreBackupsFold env opts bs s.1 (log ++ s.2)

/-- `rollback(options)`. -/
def rollback (env : Env) (opts : InstallOptions) (fs : Fs) : RollbackRes :=
  let loaded := loadLastRunState env fs
  match loaded.1 with
  | none =>
    ⟨fs, loaded.2 ++ [LogMsg.errorMsg "No previous run state found. Cannot rollback."], false⟩
  | some lastRun =>
    let r1 := removeLinksFold env opts lastRun.symlinks fs
      (loaded.2 ++ [LogMsg.info ("Last run: " ++ lastRun.command ++ " at " ++ lastRun.timestamp)])
    let r2 := restoreBackupsFold env opts lastRun.backups r1.1 r1.2
    let fs3 := if ¬ opts.dryRun then removeF r2.1 (lastRunPath env) else r2.1
    ⟨fs3, r2.2 ++ [LogMsg.success "Rollback complete!"], true⟩

/-! ## `src/index.ts` (`linkCommand`) -/

/-- The backup-collection loop of `linkCommand` / `installCommand`:
one `BackupEntry` per state carrying a `backupPath`. -/
def collectBackups (env : Env) (states : List SymlinkState) : List BackupEntry :=
  states.filterMap (fun st =>
    st.backupPath.map (fun bp => { original := st.target, backup := bp, timestamp := env.now }))

/-- `linkCommand(options)` restricted to the symlink engine and run-state
persistence: run `createSymlinks`, then — unless dry-run or the run
errored — persist the `LastRun` built from the collected backups and the
`linked` states. -/
def linkCommand (env : Env) (opts : InstallOptions) (entries : List Entry)
    (fs : Fs) (script : List Char) : RunOut :=
  let r := createSymlinks env opts entries fs script
  match r.states with
  | .error _ => r
  | .ok sts =>
    if opts.dryRun then r
    else
      { r with
        fs := saveLastRunState env r.fs
          { timestamp := env.nowIso
            command := "link"
            backups := collectBackups env sts
            symlinks := statesToEntries sts } }

/-! ## Specification-side glob semantics

`GlobSpec pattern value` is the spec's reading of hostname matching,
written from the spec's words alone: `*` = any run of characters, `?` =
any single character, every other character matches itself literally.
It is compared with the source-derived matcher `matchGlob` below. -/

/-- The glob relation the spec describes. -/
inductive GlobSpec : List Char → List Char → Prop
  | nil : GlobSpec [] []
  | one (c : Char) (ps vs : List Char) :
      GlobSpec ps vs → GlobSpec ('?' :: ps) (c :: vs)
  | star (ps s vs : List Char) :
      GlobSpec ps vs → GlobSpec ('*' :: ps) (s ++ vs)
  | lit (c : Char) (ps vs : List Char) (h1 : c ≠ '*') (h2 : c ≠ '?') :
      GlobSpec ps vs → GlobSpec (c :: ps) (c :: vs)

/-! ## Concrete fixtures used by counterexamples and witnesses -/

/-- A concrete machine: home `/home/u`, Linux, hostname `work-laptop`,
stdin not a TTY, clock at 5 ms. -/
def envT : Env := ⟨"/home/u", "/home/u/dots/config", .linux, "work-laptop", false, 5, "T"⟩

/-- All flags off (non-interactive here because `envT.tty` is false). -/
def optsNI : InstallOptions := ⟨false, false, false, false, false⟩

/-- Forced mode. -/
def optsForce : InstallOptions := ⟨false, true, false, false, false⟩

/-- Dry-run mode. -/
def optsDry : InstallOptions := ⟨true, false, false, false, false⟩

/-- Filesystem with two repo sources and an empty home. -/
def fsC1 : Fs :=
  [("/home/u/dots/config/a", .file (.bytes "A")),
   ("/home/u/dots/config/b", .file (.bytes "B")),
   ("/home/u", .dir)]

/-- A valid first entry followed by a path-traversal entry. -/
def entriesC1 : List Entry :=
  [("a", .plain "file1"), ("b", .plain "../../etc/passwd")]

/-- Filesystem where the target is occupied by a regular file. -/
def fsC4 : Fs :=
  [("/home/u/dots/config/a", .file (.bytes "A")),
   ("/home/u/file1", .file (.bytes "old")),
   ("/home/u", .dir)]

/-- Filesystem where the target is already the correct symlink. -/
def fsLinked : Fs :=
  [("/home/u/dots/config/a", .file (.bytes "A")),
   ("/home/u/file1", .symlink "/home/u/dots/config/a"),
   ("/home/u", .dir)]

/-- A persisted run state with one created link and two backups, the
first of which no longer exists on disk. -/
def lrT : LastRun :=
  ⟨"T0", "link",
   [⟨"/home/u/gone", "/home/u/gone.backup.1", 1⟩,
    ⟨"/home/u/file1", "/home/u/file1.backup.2", 2⟩],
   [⟨"/home/u/dots/config/a", "/home/u/file1"⟩]⟩

/-- Filesystem holding `lrT`, the created link, and only the second
recorded backup file. -/
def fsC5 : Fs :=
  [("/home/u/.dotfiles-last-run.json", .file (.runJson lrT)),
   ("/home/u/file1", .symlink "/home/u/dots/config/a"),
   ("/home/u/file1.backup.2", .file (.bytes "old")),
   ("/home/u", .dir)]

/-- Filesystem whose run-state file exists but holds unparseable
content. -/
def fsC10 : Fs :=
  [("/home/u/.dotfiles-last-run.json", .file .garbage),
   ("/home/u/x", .file (.bytes "k"))]

/-! # Theorems -/

/-! ## C2 — sticky prompt keys

The menu printed by `promptConflict` documents `[S] Skip all remaining`
and `[B] Backup all remaining`, and the switch carries arms
`case "S"` / `case "B"` commented `Capital S = skip all` /
`Capital B = backup all`. But `readChar` resolves
`data.toString().toLowerCase()`, so the dispatched character is never an
uppercase letter: pressing `S` resolves as plain `skip` with no
`applyToAll`, and `B` as plain `backup`, so no sticky choice is ever
latched from the prompt. -/

/-- C2: pressing uppercase `S` (resp. `B`) at the conflict prompt yields
a plain skip (resp. backup) with `applyToAll` unset — not the documented
sticky `{action, applyToAll: true}` — because `readChar` lowercases the
key before the switch runs. -/
theorem c2_sticky_keys_dead :
    promptConflict ['S'] = some (⟨.skip, false⟩, [])
    ∧ promptConflict ['B'] = some (⟨.backup, false⟩, [])
    ∧ promptConflict ['S'] ≠ some (⟨.skip, true⟩, [])
    ∧ promptConflict ['B'] ≠ some (⟨.backup, true⟩, []) := by
  refine ⟨rfl, rfl, ?_, ?_⟩ <;> decide

/-! ## C1 — integrity violation and mutation order

`createSymlinks` iterates the entries in order; for each entry it first
evaluates the condition (skipping the entry entirely, validation
included, when it does not apply) and only then calls
`validatePathWithinBase` before mutating for that entry. Hence an
out-of-home target raises the integrity error when its entry is
reached — after earlier entries have already mutated the filesystem —
and raises nothing at all when its entry's condition does not apply. -/

/-- C1 counterexample: with a valid first entry and a traversal second
entry the run does raise the integrity violation, but only after the
first entry's symlink was already created (the filesystem differs from
the initial one at the error); and a traversal entry whose platform
condition does not match raises no violation at all. -/
theorem c1_counterexample :
    (createSymlinks envT optsNI entriesC1 fsC1 []).states
      = .error (.integrity (integrityMsg "/etc/passwd" "/home/u" "Symlink target"))
    ∧ (createSymlinks envT optsNI entriesC1 fsC1 []).fs ≠ fsC1
    ∧ (createSymlinks envT optsNI
        [("b", .conditional "../../etc/passwd" ⟨none, some .darwin⟩)] fsC1 []).states
      = .ok [⟨"/home/u/dots/config/b", "/etc/passwd", .missing, none⟩] := by
  refine ⟨rfl, ?_, rfl⟩
  decide

/-- Helper for C1: if a prefix of the entry list runs to completion,
appending an applicable entry whose resolved target escapes the home
directory makes the whole run stop at that entry with the integrity
error, the filesystem being exactly the prefix's. -/
theorem runLoop_integrity_stop (env : Env) (opts : InstallOptions) (bad : Entry)
    (post : List Entry)
    (happ : (entryDecision env bad).1 = true)
    (hbad : validPathWithinBase (entryTarget env bad) env.home = false) :
    ∀ (pre : List Entry) (fs : Fs) (script : List Char)
      (pending : Option ConflictChoice) (sts : List SymlinkState),
      (runLoop env opts pre fs script pending).states = .ok sts →
      (runLoop env opts (pre ++ bad :: post) fs script pending).fs
          = (runLoop env opts pre fs script pending).fs
        ∧ (runLoop env opts (pre ++ bad :: post) fs script pending).states
          = .error (.integrity (integrityMsg (entryTarget env bad) env.home "Symlink target"))
  | [], fs, script, pending, sts, _ => by
    have hstep : processEntry env opts bad fs script pending
        = ⟨fs, script, [], .error (.integrity (integrityMsg (entryTarget env bad) env.home "Symlink target"))⟩ := by
      unfold processEntry
      simp [happ, hbad]
    simp only [List.nil_append, runLoop, hstep]
    exact ⟨trivial, trivial⟩
  | e :: pre, fs, script, pending, sts, hok => by
    rw [List.cons_append] at *
    unfold runLoop at hok ⊢
    generalize hs : processEntry env opts e fs script pending = s at hok ⊢
    rcases s with ⟨sfs, sscript, slog, sres⟩
    rcases sres with err | ⟨st, nc⟩
    · simp at hok
    · dsimp only at hok ⊢
      cases nc with
      | some c =>
        dsimp only at hok ⊢
        rcases hrec : (runLoop env opts pre sfs sscript (some c)).states with e2 | sts2
        · rw [hrec] at hok
          simp [Except.map] at hok
        · have ih := runLoop_integrity_stop env opts bad post happ hbad pre
            sfs sscript (some c) sts2 hrec
          exact ⟨ih.1, by rw [ih.2]; rfl⟩
      | none =>
        dsimp only at hok ⊢
        rcases hrec : (runLoop env opts pre sfs sscript pending).states with e2 | sts2
        · rw [hrec] at hok
          simp [Except.map] at hok
        · have ih := runLoop_integrity_stop env opts bad post happ hbad pre
            sfs sscript pending sts2 hrec
          exact ⟨ih.1, by rw [ih.2]; rfl⟩

/-- C1 (amended): for every run, flags, and entry list, if the run
reaches an applicable entry whose resolved target escapes the home
subtree, the run raises the integrity violation at that entry, before
any filesystem mutation for that entry or any later entry — but entries
earlier in the list may already have mutated the filesystem. -/
theorem c1_integrity_before_entry_mutation (env : Env) (opts : InstallOptions)
    (pre post : List Entry) (bad : Entry) (fs : Fs) (script : List Char)
    (sts : List SymlinkState)
    (hok : (runLoop env opts pre fs script none).states = .ok sts)
    (happ : (entryDecision env bad).1 = true)
    (hbad : validPathWithinBase (entryTarget env bad) env.home = false) :
    (createSymlinks env opts (pre ++ bad :: post) fs script).fs
        = (createSymlinks env opts pre fs script).fs
      ∧ (createSymlinks env opts (pre ++ bad :: post) fs script).states
        = .error (.integrity (integrityMsg (entryTarget env bad) env.home "Symlink target")) :=
  runLoop_integrity_stop env opts bad post happ hbad pre fs script none sts hok

/-- C1 witness: the amended theorem applied at the concrete
counterexample fixture. -/
theorem c1_witness :
    (runLoop envT optsNI [("a", .plain "file1")] fsC1 [] none).states
        = .ok [⟨"/home/u/dots/config/a", "/home/u/file1", .linked, none⟩]
      ∧ (createSymlinks envT optsNI entriesC1 fsC1 []).states
        = .error (.integrity (integrityMsg "/etc/passwd" "/home/u" "Symlink target")) := by
  refine ⟨rfl, ?_⟩
  have h := c1_integrity_before_entry_mutation envT optsNI [("a", .plain "file1")]
    [] ("b", .plain "../../etc/passwd") fsC1 []
    [⟨"/home/u/dots/config/a", "/home/u/file1", .linked, none⟩] rfl (by decide) (by decide)
  exact h.2

/-! ## C8 — condition evaluation and hostname globbing -/

/-- Over a value free of line terminators, `globStar k` succeeds exactly
when the continuation succeeds on some suffix: the backtracking
semantics of `.*`. -/
theorem globStar_eq_true_iff (k : List Char → Bool) :
    ∀ v : List Char, (∀ c ∈ v, isLineTerm c = false) →
      (globStar k v = true ↔ ∃ s t, v = s ++ t ∧ k t = true)
  | [], _ => by
    constructor
    · intro h
      exact ⟨[], [], rfl, h⟩
    · rintro ⟨s, t, heq, hk⟩
      rcases List.append_eq_nil.mp heq.symm with ⟨rfl, rfl⟩
      exact hk
  | c :: vs, hv => by
    have hc : isLineTerm c = false := hv c (List.mem_cons_self c vs)
    have hvs : ∀ a ∈ vs, isLineTerm a = false :=
      fun a ha => hv a (List.mem_cons_of_mem c ha)
    simp only [globStar, hc, Bool.not_false, Bool.true_and, Bool.or_eq_true]
    constructor
    · rintro (h | h)
      · exact ⟨[], c :: vs, rfl, h⟩
      · rcases (globStar_eq_true_iff k vs hvs).mp h with ⟨s, t, rfl, hk⟩
        exact ⟨c :: s, t, rfl, hk⟩
    · rintro ⟨s, t, heq, hk⟩
      cases s with
      | nil =>
        simp only [List.nil_append] at heq
        exact Or.inl (heq ▸ hk)
      | cons c2 s2 =>
        rw [List.cons_append] at heq
        injection heq with h1 h2
        exact Or.inr ((globStar_eq_true_iff k vs hvs).mpr ⟨s2, t, h2, hk⟩)

/-- Inversion: a match of the empty pattern forces the empty value. -/
theorem globSpec_nil_inv {v : List Char} (h : GlobSpec [] v) : v = [] := by
  generalize hq : ([] : List Char) = q at h
  cases h with
  | nil => rfl
  | one c ps vs hs => exact absurd hq (by simp)
  | star ps s vs hs => exact absurd hq (by simp)
  | lit c ps vs h1 h2 hs => exact absurd hq (by simp)

/-- Inversion of a `*`-headed pattern match. -/
theorem globSpec_star_inv {ps v : List Char} (h : GlobSpec ('*' :: ps) v) :
    ∃ s t, v = s ++ t ∧ GlobSpec ps t := by
  generalize hq : '*' :: ps = q at h
  cases h with
  | nil => exact absurd hq (by simp)
  | one c ps2 vs hs =>
    injection hq with h1 h2
    exact absurd h1 (by decide)
  | star ps2 s vs hs =>
    injection hq with h1 h2
    exact ⟨s, vs, rfl, h2 ▸ hs⟩
  | lit c ps2 vs h1 h2 hs =>
    injection hq with h3 h4
    exact absurd h3.symm h1

/-- Inversion of a `?`-headed pattern match. -/
theorem globSpec_qm_inv {ps v : List Char} (h : GlobSpec ('?' :: ps) v) :
    ∃ c vs, v = c :: vs ∧ GlobSpec ps vs := by
  generalize hq : '?' :: ps = q at h
  cases h with
  | nil => exact absurd hq (by simp)
  | one c ps2 vs hs =>
    injection hq with h1 h2
    exact ⟨c, vs, rfl, h2 ▸ hs⟩
  | star ps2 s vs hs =>
    injection hq with h1 h2
    exact absurd h1 (by decide)
  | lit c ps2 vs h1 h2 hs =>
    injection hq with h3 h4
    exact absurd h3.symm h2

/-- Inversion of a literal-headed pattern match. -/
theorem globSpec_lit_inv {p : Char} {ps v : List Char}
    (hp : p ≠ '*') (hq : p ≠ '?') (h : GlobSpec (p :: ps) v) :
    ∃ vs, v = p :: vs ∧ GlobSpec ps vs := by
  generalize hg : p :: ps = q at h
  cases h with
  | nil => exact absurd hg (by simp)
  | one c ps2 vs hs =>
    injection hg with h1 h2
    exact absurd h1 hq
  | star ps2 s vs hs =>
    injection hg with h1 h2
    exact absurd h1 hp
  | lit c ps2 vs h1 h2 hs =>
    injection hg with h3 h4
    exact ⟨vs, by rw [h3], h4 ▸ hs⟩

/-- Over a value free of line terminators — where JS `.` is
unrestricted — the source matcher agrees with the spec's glob
relation. -/
theorem globChars_iff : ∀ p v : List Char, (∀ c ∈ v, isLineTerm c = false) →
    (globChars p v = true ↔ GlobSpec p v)
  | [], v, _ => by
    simp only [globChars, List.isEmpty_iff]
    constructor
    · rintro rfl
      exact .nil
    · intro h
      exact globSpec_nil_inv h
  | p :: ps, v, hv => by
    by_cases hp : p = '*'
    · subst hp
      rw [show globChars ('*' :: ps) v = globStar (globChars ps) v from by
        simp [globChars]]
      rw [globStar_eq_true_iff (globChars ps) v hv]
      constructor
      · rintro ⟨s, t, rfl, hk⟩
        have hvt : ∀ c ∈ t, isLineTerm c = false :=
          fun c hc => hv c (List.mem_append.mpr (Or.inr hc))
        exact .star ps s t ((globChars_iff ps t hvt).mp hk)
      · intro h
        rcases globSpec_star_inv h with ⟨s, t, rfl, hs⟩
        have hvt : ∀ c ∈ t, isLineTerm c = false :=
          fun c hc => hv c (List.mem_append.mpr (Or.inr hc))
        exact ⟨s, t, rfl, (globChars_iff ps t hvt).mpr hs⟩
    · cases v with
      | nil =>
        rw [show globChars (p :: ps) [] = false from by simp [globChars, hp]]
        simp only [Bool.false_eq_true, false_iff]
        intro h
        by_cases hq : p = '?'
        · subst hq
          rcases globSpec_qm_inv h with ⟨c, vs, hcon, hs⟩
          exact absurd hcon (by simp)
        · rcases globSpec_lit_inv hp hq h with ⟨vs, hcon, hs⟩
          exact absurd hcon (by simp)
      | cons d vs =>
        have hd : isLineTerm d = false := hv d (List.mem_cons_self d vs)
        have hvs : ∀ a ∈ vs, isLineTerm a = false :=
          fun a ha => hv a (List.mem_cons_of_mem d ha)
        by_cases hq : p = '?'
        · subst hq
          rw [show globChars ('?' :: ps) (d :: vs)
              = (!(isLineTerm d) && globChars ps vs) from by simp [globChars, hp]]
          rw [hd]
          simp only [Bool.not_false, Bool.true_and]
          constructor
          · intro h
            exact .one d ps vs ((globChars_iff ps vs hvs).mp h)
          · intro h
            rcases globSpec_qm_inv h with ⟨c, vs2, hcon, hs⟩
            injection hcon with h1 h2
            exact (globChars_iff ps vs hvs).mpr (h2 ▸ hs)
        · rw [show globChars (p :: ps) (d :: vs)
              = ((p = d : Bool) && globChars ps vs) from by simp [globChars, hp, hq]]
          simp only [Bool.and_eq_true, decide_eq_true_eq]
          constructor
          · rintro ⟨hpd, h⟩
            exact hpd ▸ .lit p ps vs hp hq ((globChars_iff ps vs hvs).mp h)
          · intro h
            rcases globSpec_lit_inv hp hq h with ⟨vs2, hcon, hs⟩
            injection hcon with h1 h2
            exact ⟨h1.symm, (globChars_iff ps vs hvs).mpr (h2 ▸ hs)⟩

/-- C8 counterexample: the claim reads `*` as any run of characters and
`?` as any single character, so the spec relation matches hostname
`"a\nb"` against both `"a*b"` and `"a?b"`; but the source compiles the
wildcards to `.*` and `.` in a regex without the `s` flag, and JS `.`
matches no line terminator, so `matchGlob` rejects both. -/
theorem c8_counterexample :
    matchGlob "a\nb" "a*b" = false
    ∧ matchGlob "a\nb" "a?b" = false
    ∧ GlobSpec "a*b".data "a\nb".data
    ∧ GlobSpec "a?b".data "a\nb".data := by
  refine ⟨rfl, rfl, ?_, ?_⟩
  · show GlobSpec ['a', '*', 'b'] ['a', '\n', 'b']
    refine GlobSpec.lit 'a' _ _ (by decide) (by decide) ?_
    exact GlobSpec.star ['b'] ['\n'] ['b']
      (GlobSpec.lit 'b' [] [] (by decide) (by decide) GlobSpec.nil)
  · show GlobSpec ['a', '?', 'b'] ['a', '\n', 'b']
    refine GlobSpec.lit 'a' _ _ (by decide) (by decide) ?_
    exact GlobSpec.one '\n' ['b'] ['b']
      (GlobSpec.lit 'b' [] [] (by decide) (by decide) GlobSpec.nil)

/-- C8 (amended): a condition with no predicates always applies; with
both a platform and a hostname predicate the entry applies only if both
match, the platform predicate is evaluated first and the first failing
predicate's reason is reported; and over values free of line terminators
(LF, CR, U+2028, U+2029 — which the compiled `.`/`.*` can never match)
hostname matching realizes exactly the spec's glob semantics (`*` any
run, `?` any single character, other characters literal). -/
theorem c8_condition_semantics (env : Env) (pat : String) (p : Platform)
    (value pattern : String) :
    shouldCreateSymlink env none = (true, none)
    ∧ (env.platform ≠ p →
        shouldCreateSymlink env (some ⟨some pat, some p⟩)
          = (false, some ("platform " ++ platformName p ++ " ≠ " ++ platformName env.platform)))
    ∧ (env.platform = p → matchGlob env.hostname pat = false →
        shouldCreateSymlink env (some ⟨some pat, some p⟩)
          = (false, some ("hostname " ++ pat ++ " ≠ " ++ env.hostname)))
    ∧ (env.platform = p → matchGlob env.hostname pat = true →
        shouldCreateSymlink env (some ⟨some pat, some p⟩) = (true, none))
    ∧ ((∀ c ∈ value.data, isLineTerm c = false) →
        (matchGlob value pattern = true ↔ GlobSpec pattern.data value.data)) := by
  refine ⟨rfl, ?_, ?_, ?_, fun hv => globChars_iff pattern.data value.data hv⟩
  · intro hne
    simp [shouldCreateSymlink, hne]
  · intro heq hglob
    simp [shouldCreateSymlink, heq, hglob]
  · intro heq hglob
    simp [shouldCreateSymlink, heq, hglob]

/-- C8 witness: concrete platform mismatch (`darwin` wanted on a `linux`
machine, with the platform reason reported even though the hostname
pattern also fails to be checked), and `work-*` matching the
line-terminator-free hostname `work-laptop` in the spec's glob
relation. -/
theorem c8_witness :
    shouldCreateSymlink envT (some ⟨some "work-*", some .darwin⟩)
      = (false, some ("platform " ++ platformName .darwin ++ " ≠ " ++ platformName envT.platform))
    ∧ GlobSpec "work-*".data "work-laptop".data :=
  ⟨(c8_condition_semantics envT "work-*" .darwin "work-laptop" "work-*").2.1 (by decide),
   ((c8_condition_semantics envT "work-*" .darwin "work-laptop" "work-*").2.2.2.2
     (by decide)).mp (by decide)⟩

/-! ## C3 — backup status preservation and run-state contents -/

/-- `rename` succeeds when the origin exists. -/
theorem renameF_of_exists {fs : Fs} {src : String} (dst : String) {n : FsNode}
    (h : lookupF fs src = some n) :
    renameF fs src dst = some (setF (removeF fs src) dst n) := by
  unfold renameF
  rw [h]

/-- C3: a conflict resolved by `backup` (here: forced mode with no
pending sticky choice) leaves the entry with final status `backup`; the
subsequent link creation does not overwrite it with `linked`. And
`statesToEntries` maps a state list to the `(source, target)` pairs of
exactly its `linked`-status members. -/
theorem c3_backup_preserved_and_linked_persisted :
    (∀ (env : Env) (opts : InstallOptions) (source target : String)
        (fs : Fs) (script : List Char),
      statEx fs source = true → fileOrLinkExists fs target = true →
      isSymlinkTo fs target source = false → opts.force = true →
      (createSymlinkOne env opts source target fs script none).result.map
          (fun pr => pr.1.status)
        = .ok .backup)
    ∧ (∀ (states : List SymlinkState) (ent : SymlinkEntry),
        ent ∈ statesToEntries states
          ↔ ∃ s, s ∈ states ∧ s.status = .linked ∧ ent = ⟨s.source, s.target⟩) := by
  constructor
  · intro env opts source target fs script hsrc htgt hnot hforce
    unfold createSymlinkOne applyChoice
    rcases hdr : opts.dryRun
    · obtain ⟨n, hn⟩ := Option.isSome_iff_exists.mp htgt
      simp [hsrc, fileOrLinkExists, hn, hnot, hforce, hdr,
        renameF_of_exists (backupName target env.now) hn, finishSymlink, Except.map]
    · obtain ⟨n, hn⟩ := Option.isSome_iff_exists.mp htgt
      simp [hsrc, fileOrLinkExists, hn, hnot, hforce, hdr, finishSymlink, Except.map]
  · intro states ent
    simp only [statesToEntries, List.mem_map, List.mem_filter, decide_eq_true_eq]
    constructor
    · rintro ⟨s, ⟨hmem, hst⟩, rfl⟩
      exact ⟨s, hmem, hst, rfl⟩
    · rintro ⟨s, hmem, hst, rfl⟩
      exact ⟨s, ⟨hmem, hst⟩, rfl⟩

/-- C3 witness: the forced-backup entry over an occupied target ends
with status `backup`, and a `linked` state's pair is in the persisted
list. -/
theorem c3_witness :
    (createSymlinkOne envT optsForce "/home/u/dots/config/a" "/home/u/file1"
        fsC4 [] none).result.map (fun pr => pr.1.status) = .ok .backup
    ∧ (⟨"/s", "/t"⟩ : SymlinkEntry) ∈ statesToEntries [⟨"/s", "/t", .linked, none⟩] :=
  ⟨c3_backup_preserved_and_linked_persisted.1 envT optsForce
      "/home/u/dots/config/a" "/home/u/file1" fsC4 [] (by decide) (by decide)
      (by decide) rfl,
   (c3_backup_preserved_and_linked_persisted.2 [⟨"/s", "/t", .linked, none⟩]
      ⟨"/s", "/t"⟩).mpr ⟨⟨"/s", "/t", .linked, none⟩, List.mem_singleton.mpr rfl, rfl, rfl⟩⟩

/-! ## C7 — non-interactive conflict fallback -/

/-- Unfolding equation for one loop iteration. -/
theorem runLoop_cons_eq (env : Env) (opts : InstallOptions) (e : Entry)
    (rest : List Entry) (fs : Fs) (script : List Char)
    (pending : Option ConflictChoice) :
    runLoop env opts (e :: rest) fs script pending =
      (let s := processEntry env opts e fs script pending
       match s.result with
       | .error err => ⟨s.fs, s.script, pending, s.log, .error err⟩
       | .ok (st, nextChoice) =>
         let pending1 := match nextChoice with
           | some c => some c
           | none => pending
         let r := runLoop env opts rest s.fs s.script pending1
         ⟨r.fs, r.script, r.pending, s.log ++ r.log, r.states.map (st :: ·)⟩) := rfl

/-- C7: a conflicting entry hit with no pending sticky choice, outside
forced mode, in a non-interactive run (flag set or stdin not a TTY)
resolves as a skip: the entry's state is `conflict` with nothing on disk
changed, the forced-mode remediation warning is emitted, and the loop
continues with the remaining entries, whose processing is exactly that
of the rest of the list. -/
theorem c7_noninteractive_conflict_skip (env : Env) (opts : InstallOptions) (e : Entry)
    (rest : List Entry) (fs : Fs) (script : List Char)
    (hforce : opts.force = false)
    (hni : opts.noInteractive = true ∨ env.tty = false)
    (happ : (entryDecision env e).1 = true)
    (hval : validPathWithinBase (entryTarget env e) env.home = true)
    (hsrc : statEx fs (entrySource env e) = true)
    (htgt : fileOrLinkExists fs (entryTarget env e) = true)
    (hnot : isSymlinkTo fs (entryTarget env e) (entrySource env e) = false) :
    processEntry env opts e fs script none
      = ⟨fs, script,
          [LogMsg.warn ("Conflict: " ++ contractPath env (entryTarget env e)
            ++ " exists (use --force to backup and replace)")],
          .ok (⟨entrySource env e, entryTarget env e, .conflict, none⟩, none)⟩
    ∧ runLoop env opts (e :: rest) fs script none
      = { runLoop env opts rest fs script none with
          log := LogMsg.warn ("Conflict: " ++ contractPath env (entryTarget env e)
              ++ " exists (use --force to backup and replace)")
            :: (runLoop env opts rest fs script none).log,
          states := (runLoop env opts rest fs script none).states.map
            (⟨entrySource env e, entryTarget env e, .conflict, none⟩ :: ·) } := by
  obtain ⟨n, hn⟩ := Option.isSome_iff_exists.mp htgt
  have hniB : (opts.noInteractive || !(isInteractive env)) = true := by
    rcases hni with h | h <;> simp [h, isInteractive]
  have hstep : processEntry env opts e fs script none
      = ⟨fs, script,
          [LogMsg.warn ("Conflict: " ++ contractPath env (entryTarget env e)
            ++ " exists (use --force to backup and replace)")],
          .ok (⟨entrySource env e, entryTarget env e, .conflict, none⟩, none)⟩ := by
    unfold processEntry createSymlinkOne
    simp [happ, hval, hsrc, fileOrLinkExists, hn, hnot, hforce, hniB]
  refine ⟨hstep, ?_⟩
  rw [runLoop_cons_eq, hstep]
  rfl

/-- C7 witness: the non-interactive machine `envT` with all flags off,
over an occupied target. -/
theorem c7_witness :
    processEntry envT optsNI ("a", SymlinkTarget.plain "file1") fsC4 [] none
      = ⟨fsC4, [],
          [LogMsg.warn ("Conflict: "
            ++ contractPath envT (entryTarget envT ("a", SymlinkTarget.plain "file1"))
            ++ " exists (use --force to backup and replace)")],
          .ok (⟨entrySource envT ("a", SymlinkTarget.plain "file1"),
                entryTarget envT ("a", SymlinkTarget.plain "file1"), .conflict, none⟩, none)⟩ :=
  (c7_noninteractive_conflict_skip envT optsNI ("a", SymlinkTarget.plain "file1") [] fsC4 []
    rfl (Or.inr rfl) (by decide) (by decide) (by decide) (by decide) (by decide)).1

/-! ## C6 — dry-run purity -/

/-- Under dry-run, resolving a conflict choice touches neither the
filesystem nor anything else mutable. -/
theorem applyChoice_dryRun_fs (env : Env) (opts : InstallOptions)
    (source target : String) (fs : Fs) (script : List Char) (choice : ConflictChoice)
    (h : opts.dryRun = true) :
    (applyChoice env opts source target fs script choice).fs = fs := by
  rcases choice with ⟨act, ata⟩
  cases act <;> simp [applyChoice, finishSymlink, h]

/-- Under dry-run, processing a single symlink never mutates the
filesystem. -/
theorem createSymlinkOne_dryRun_fs (env : Env) (opts : InstallOptions)
    (source target : String) (fs : Fs) (script : List Char)
    (pending : Option ConflictChoice) (h : opts.dryRun = true) :
    (createSymlinkOne env opts source target fs script pending).fs = fs := by
  unfold createSymlinkOne
  split
  · rfl
  · split
    · split
      · rfl
      · split
        · exact applyChoice_dryRun_fs env opts source target fs script _ h
        · split
          · exact applyChoice_dryRun_fs env opts source target fs script _ h
          · split
            · rfl
            · split
              · rfl
              · exact applyChoice_dryRun_fs env opts source target fs _ _ h
    · simp [finishSymlink, h]

/-- Under dry-run, one loop iteration never mutates the filesystem. -/
theorem processEntry_dryRun_fs (env : Env) (opts : InstallOptions) (e : Entry)
    (fs : Fs) (script : List Char) (pending : Option ConflictChoice)
    (h : opts.dryRun = true) :
    (processEntry env opts e fs script pending).fs = fs := by
  unfold processEntry
  dsimp only
  split
  · rfl
  · split
    · rfl
    · exact createSymlinkOne_dryRun_fs env opts _ _ fs script pending h

/-- Under dry-run, the whole loop leaves the filesystem untouched. -/
theorem runLoop_dryRun_fs (env : Env) (opts : InstallOptions) (h : opts.dryRun = true) :
    ∀ (entries : List Entry) (fs : Fs) (script : List Char)
      (pending : Option ConflictChoice),
      (runLoop env opts entries fs script pending).fs = fs
  | [], fs, script, pending => rfl
  | e :: rest, fs, script, pending => by
    rw [runLoop_cons_eq]
    dsimp only
    rcases hres : (processEntry env opts e fs script pending).result with err | stnc
    · dsimp only
      exact processEntry_dryRun_fs env opts e fs script pending h
    · rcases stnc with ⟨st, nc⟩
      dsimp only
      rw [runLoop_dryRun_fs env opts h rest _ _ _]
      exact processEntry_dryRun_fs env opts e fs script pending h

/-- A loop that completes produces exactly one state per entry. -/
theorem runLoop_length (env : Env) (opts : InstallOptions) :
    ∀ (entries : List Entry) (fs : Fs) (script : List Char)
      (pending : Option ConflictChoice) (sts : List SymlinkState),
      (runLoop env opts entries fs script pending).states = .ok sts →
      sts.length = entries.length
  | [], fs, script, pending, sts, h => by
    simp only [runLoop] at h
    cases h
    rfl
  | e :: rest, fs, script, pending, sts, h => by
    rw [runLoop_cons_eq] at h
    dsimp only at h
    rcases hres : (processEntry env opts e fs script pending).result with err | stnc
    · rw [hres] at h
      simp at h
    · rcases stnc with ⟨st, nc⟩
      rw [hres] at h
      dsimp only at h
      cases nc with
      | some c =>
        dsimp only at h
        rcases hst : (runLoop env opts rest (processEntry env opts e fs script pending).fs
            (processEntry env opts e fs script pending).script (some c)).states with e2 | sts2
        · rw [hst] at h
          simp [Except.map] at h
        · rw [hst] at h
          simp only [Except.map, Except.ok.injEq] at h
          have hlen := runLoop_length env opts rest _ _ _ sts2 hst
          rw [← h]
          simp [hlen]
      | none =>
        dsimp only at h
        rcases hst : (runLoop env opts rest (processEntry env opts e fs script pending).fs
            (processEntry env opts e fs script pending).script pending).states with e2 | sts2
        · rw [hst] at h
          simp [Except.map] at h
        · rw [hst] at h
          simp only [Except.map, Except.ok.injEq] at h
          have hlen := runLoop_length env opts rest _ _ _ sts2 hst
          rw [← h]
          simp [hlen]

/-- C6: with `dryRun` set, the engine and the surrounding link command
perform no filesystem write at all — no backup rename, no unlink, no
directory creation, no symlink creation, and no run-state persistence —
while a completing run still reports one state per configured entry. -/
theorem c6_dry_run_purity (env : Env) (opts : InstallOptions) (entries : List Entry)
    (fs : Fs) (script : List Char) (h : opts.dryRun = true) :
    (createSymlinks env opts entries fs script).fs = fs
    ∧ (linkCommand env opts entries fs script).fs = fs
    ∧ ∀ sts, (linkCommand env opts entries fs script).states = .ok sts →
        sts.length = entries.length := by
  have hrun : (createSymlinks env opts entries fs script).fs = fs :=
    runLoop_dryRun_fs env opts h entries fs script none
  have hlc : linkCommand env opts entries fs script
      = createSymlinks env opts entries fs script := by
    unfold linkCommand
    dsimp only
    cases hst : (createSymlinks env opts entries fs script).states with
    | error e2 => rfl
    | ok sts => simp [h]
  refine ⟨hrun, by rw [hlc]; exact hrun, ?_⟩
  intro sts hsts
  rw [hlc] at hsts
  exact runLoop_length env opts entries fs script none sts hsts

/-- C6 witness: a dry run over an occupied target changes nothing and
reports one state for the one entry. -/
theorem c6_witness :
    (createSymlinks envT optsDry [("a", SymlinkTarget.plain "file1")] fsC4 []).fs = fsC4
    ∧ ([⟨"/home/u/dots/config/a", "/home/u/file1", Status.conflict, none⟩] :
        List SymlinkState).length = [("a", SymlinkTarget.plain "file1")].length :=
  ⟨(c6_dry_run_purity envT optsDry [("a", SymlinkTarget.plain "file1")] fsC4 [] rfl).1,
   (c6_dry_run_purity envT optsDry [("a", SymlinkTarget.plain "file1")] fsC4 [] rfl).2.2
     [⟨"/home/u/dots/config/a", "/home/u/file1", Status.conflict, none⟩] rfl⟩

/-! ## C4 — idempotence -/

/-- C4 counterexample: one still-applicable entry whose target is
occupied by a foreign regular file gets status `conflict` — not
`linked` — on the first pass (and on every later pass), refuting the
claim's "linked for every still-applicable entry on both passes". -/
theorem c4_counterexample :
    (createSymlinks envT optsNI [("a", SymlinkTarget.plain "file1")] fsC4 []).states
      = .ok [⟨"/home/u/dots/config/a", "/home/u/file1", .conflict, none⟩]
    ∧ Status.conflict ≠ Status.linked :=
  ⟨rfl, by decide⟩

/-- A correct link at the target implies the target exists. -/
theorem fileOrLinkExists_of_isSymlinkTo {fs : Fs} {t s : String}
    (h : isSymlinkTo fs t s = true) : fileOrLinkExists fs t = true := by
  unfold isSymlinkTo at h
  unfold fileOrLinkExists
  rcases hl : lookupF fs t with _ | n
  · rw [hl] at h
    simp at h
  · simp

/-- One iteration over an entry that is either condition-skipped or
already correctly linked: no mutation, no script consumption, and the
corresponding descriptive state. -/
theorem processEntry_converged (env : Env) (opts : InstallOptions) (e : Entry)
    (fs : Fs) (script : List Char)
    (hval : (entryDecision env e).1 = true →
      validPathWithinBase (entryTarget env e) env.home = true)
    (hsrc : (entryDecision env e).1 = true → statEx fs (entrySource env e) = true)
    (hlink : (entryDecision env e).1 = true →
      isSymlinkTo fs (entryTarget env e) (entrySource env e) = true) :
    (processEntry env opts e fs script none).fs = fs
    ∧ (processEntry env opts e fs script none).script = script
    ∧ (processEntry env opts e fs script none).result
      = .ok ((if (entryDecision env e).1
          then ⟨entrySource env e, entryTarget env e, .linked, none⟩
          else ⟨entrySource env e, entryTarget env e, .missing, none⟩), none) := by
  by_cases hd : (entryDecision env e).1 = true
  · have h1 := hval hd
    have h2 := hsrc hd
    have h3 := hlink hd
    unfold processEntry createSymlinkOne
    simp [hd, h1, h2, h3, fileOrLinkExists_of_isSymlinkTo h3]
  · unfold processEntry
    simp [hd]

/-- The loop over a fully converged entry list: nothing changes and the
states are `linked` for applicable entries, `missing` for
condition-skipped ones. -/
theorem runLoop_converged (env : Env) (opts : InstallOptions) :
    ∀ (entries : List Entry) (fs : Fs) (script : List Char),
      (∀ e ∈ entries, (entryDecision env e).1 = true →
        validPathWithinBase (entryTarget env e) env.home = true
        ∧ statEx fs (entrySource env e) = true
        ∧ isSymlinkTo fs (entryTarget env e) (entrySource env e) = true) →
      (runLoop env opts entries fs script none).fs = fs
      ∧ (runLoop env opts entries fs script none).script = script
      ∧ (runLoop env opts entries fs script none).states
        = .ok (entries.map (fun e =>
            if (entryDecision env e).1
            then ⟨entrySource env e, entryTarget env e, .linked, none⟩
            else ⟨entrySource env e, entryTarget env e, .missing, none⟩))
  | [], fs, script, _ => ⟨rfl, rfl, rfl⟩
  | e :: rest, fs, script, h => by
    have he := h e (List.mem_cons_self e rest)
    have hstep := processEntry_converged env opts e fs script
      (fun hd => (he hd).1) (fun hd => (he hd).2.1) (fun hd => (he hd).2.2)
    have ih := runLoop_converged env opts rest fs script
      (fun e2 hm => h e2 (List.mem_cons_of_mem e hm))
    rw [runLoop_cons_eq]
    dsimp only
    rw [hstep.2.2]
    dsimp only
    rw [hstep.1, hstep.2.1]
    refine ⟨ih.1, ih.2.1, ?_⟩
    rw [ih.2.2]
    rfl

/-- C4 (amended): when every applicable entry's source exists and its
target is already the correct symlink — the state a successful pass
establishes — running the engine yields `linked` for every applicable
entry (`missing` for condition-skipped ones), performs no mutation,
consumes no prompt input, and creates no backup; consequently a second
run from the resulting filesystem returns the identical result:
classifying an already-correct link returns `linked` and returns
early. -/
theorem c4_idempotent_when_converged (env : Env) (opts : InstallOptions)
    (entries : List Entry) (fs : Fs) (script : List Char)
    (h : ∀ e ∈ entries, (entryDecision env e).1 = true →
      validPathWithinBase (entryTarget env e) env.home = true
      ∧ statEx fs (entrySource env e) = true
      ∧ isSymlinkTo fs (entryTarget env e) (entrySource env e) = true) :
    (createSymlinks env opts entries fs script).fs = fs
    ∧ (createSymlinks env opts entries fs script).script = script
    ∧ (createSymlinks env opts entries fs script).states
      = .ok (entries.map (fun e =>
          if (entryDecision env e).1
          then ⟨entrySource env e, entryTarget env e, .linked, none⟩
          else ⟨entrySource env e, entryTarget env e, .missing, none⟩))
    ∧ createSymlinks env opts entries
        (createSymlinks env opts entries fs script).fs
        (createSymlinks env opts entries fs script).script
      = createSymlinks env opts entries fs script := by
  have hc := runLoop_converged env opts entries fs script h
  exact ⟨hc.1, hc.2.1, hc.2.2, by unfold createSymlinks; rw [hc.1, hc.2.1]⟩

/-- C4 witness: a converged single-entry list stays `linked` with the
filesystem untouched. -/
theorem c4_witness :
    (createSymlinks envT optsNI [("a", SymlinkTarget.plain "file1")] fsLinked []).fs
      = fsLinked
    ∧ (createSymlinks envT optsNI [("a", SymlinkTarget.plain "file1")] fsLinked []).states
      = .ok [⟨"/home/u/dots/config/a", "/home/u/file1", Status.linked, none⟩] := by
  have h := c4_idempotent_when_converged envT optsNI [("a", SymlinkTarget.plain "file1")]
    fsLinked [] (by decide)
  exact ⟨h.1, h.2.2.1.trans (by rfl)⟩

/-! ## C5 — rollback -/

/-- Lookup after removal. -/
theorem lookupF_removeF (fs : Fs) (q p : String) :
    lookupF (removeF fs q) p = if p = q then none else lookupF fs p := by
  induction fs with
  | nil => simp [removeF, lookupF]
  | cons hd tl ih =>
    rcases hd with ⟨r, n⟩
    by_cases hrq : r = q
    · subst hrq
      by_cases hpq : p = r
      · subst hpq
        simp [removeF, lookupF, ih]
      · have hrp : ¬ r = p := fun h => hpq h.symm
        simp [removeF, lookupF, hpq, hrp, ih]
    · by_cases hrp : r = p
      · subst hrp
        have hpq : ¬ r = q := hrq
        simp [removeF, lookupF, hrq, hpq, lookupF]
      · simp [removeF, lookupF, hrq, hrp, ih]

/-- The filesystem produced by the symlink-removal loop does not depend
on the log accumulator. -/
theorem removeLinksFold_fst_log (env : Env) (opts : InstallOptions) :
    ∀ (es : List SymlinkEntry) (fs : Fs) (log log2 : List LogMsg),
      (removeLinksFold env opts es fs log).1 = (removeLinksFold env opts es fs log2).1
  | [], _, _, _ => rfl
  | e :: es, fs, log, log2 =>
    removeLinksFold_fst_log env opts es (removeLinkStep env opts fs e).1 _ _

/-- Characterization of the removal loop: every recorded target is
absent afterwards (removal tolerates absence), every other path is
untouched. -/
theorem removeLinksFold_lookup (env : Env) (opts : InstallOptions)
    (hdr : opts.dryRun = false) :
    ∀ (es : List SymlinkEntry) (fs : Fs) (log : List LogMsg) (p : String),
      lookupF (removeLinksFold env opts es fs log).1 p
        = if p ∈ es.map (fun e => e.target) then none else lookupF fs p
  | [], fs, log, p => by simp [removeLinksFold]
  | e :: es, fs, log, p => by
    have hstep1 : lookupF (removeLinkStep env opts fs e).1 p
        = if p = e.target then none else lookupF fs p := by
      unfold removeLinkStep
      rw [hdr]
      simp only [Bool.false_eq_true, reduceIte]
      split
      · exact lookupF_removeF fs e.target p
      · rename_i hnex
        by_cases hpe : p = e.target
        · subst hpe
          unfold fileOrLinkExists at hnex
          simp only [reduceIte]
          simpa using hnex
        · simp [hpe]
    show lookupF (removeLinksFold env opts es (removeLinkStep env opts fs e).1 _).1 p = _
    rw [removeLinksFold_lookup env opts hdr es (removeLinkStep env opts fs e).1 _ p]
    rw [hstep1]
    by_cases hmem : p ∈ es.map (fun e => e.target)
    · simp [hmem]
    · by_cases hpe : p = e.target
      · simp [hmem, hpe]
      · simp [hmem, hpe]

/-- The filesystem produced by the restore loop does not depend on the
log accumulator. -/
theorem restoreBackupsFold_fst_log (env : Env) (opts : InstallOptions) :
    ∀ (bs : List BackupEntry) (fs : Fs) (log log2 : List LogMsg),
      (restoreBackupsFold env opts bs fs log).1 = (restoreBackupsFold env opts bs fs log2).1
  | [], _, _, _ => rfl
  | b :: bs, fs, log, log2 =>
    restoreBackupsFold_fst_log env opts bs (restoreBackupStep env opts fs b).1 _ _

/-- Splitting the restore loop at an element. -/
theorem restoreBackupsFold_append (env : Env) (opts : InstallOptions) :
    ∀ (bs1 bs2 : List BackupEntry) (fs : Fs) (log : List LogMsg),
      restoreBackupsFold env opts (bs1 ++ bs2) fs log
        = restoreBackupsFold env opts bs2
            (restoreBackupsFold env opts bs1 fs log).1
            (restoreBackupsFold env opts bs1 fs log).2
  | [], bs2, fs, log => rfl
  | b :: bs1, bs2, fs, log =>
    restoreBackupsFold_append env opts bs1 bs2 (restoreBackupStep env opts fs b).1 _

/-- Best-effort restoration: when one recorded backup's file is missing
at its turn, its restore attempt fails without affecting the filesystem
outcome of the remaining restorations. -/
theorem restoreBackupsFold_skip_missing (env : Env) (opts : InstallOptions)
    (hdr : opts.dryRun = false) (bs1 : List BackupEntry) (b : BackupEntry)
    (bs2 : List BackupEntry) (fs : Fs) (log : List LogMsg)
    (hmiss : lookupF (restoreBackupsFold env opts bs1 fs log).1 b.backup = none) :
    (restoreBackupsFold env opts (bs1 ++ b :: bs2) fs log).1
      = (restoreBackupsFold env opts (bs1 ++ bs2) fs log).1 := by
  rw [restoreBackupsFold_append env opts bs1 (b :: bs2) fs log,
    restoreBackupsFold_append env opts bs1 bs2 fs log]
  have hren : renameF (restoreBackupsFold env opts bs1 fs log).1 b.backup b.original
      = none := by
    unfold renameF
    rw [hmiss]
  have hstep : (restoreBackupStep env opts (restoreBackupsFold env opts bs1 fs log).1 b).1
      = (restoreBackupsFold env opts bs1 fs log).1 := by
    unfold restoreBackupStep
    simp [hdr, hren]
  show (restoreBackupsFold env opts bs2
      (restoreBackupStep env opts (restoreBackupsFold env opts bs1 fs log).1 b).1 _).1 = _
  rw [hstep]
  exact restoreBackupsFold_fst_log env opts bs2 _ _ _

/-- A missing run-state file makes `loadLastRunState` return `null`. -/
theorem loadLastRunState_absent (env : Env) (fs : Fs)
    (h : lookupF fs (lastRunPath env) = none) :
    loadLastRunState env fs = (none, []) := by
  unfold loadLastRunState readFileData
  rw [h]

/-- `rollback` with no loadable run state: reported failure, filesystem
untouched. -/
theorem rollback_no_state (env : Env) (opts : InstallOptions) (fs : Fs)
    (h : (loadLastRunState env fs).1 = none) :
    (rollback env opts fs).fs = fs ∧ (rollback env opts fs).ok = false := by
  unfold rollback
  dsimp only
  rw [h]
  exact ⟨rfl, rfl⟩

/-- C5: with no persisted run state, `rollback` fails reporting and
changes nothing. Otherwise (non-dry-run) it succeeds: every recorded
symlink target is removed — tolerating absence — while all other paths
are untouched by the removal loop, recorded backups are restored best
effort (a missing backup file is skipped without affecting the remaining
restorations), the run-state file is deleted, and an immediately
following second `rollback` fails with the no-previous-run-state report
while changing nothing further. -/
theorem c5_rollback_contract (env : Env) (opts : InstallOptions)
    (hdr : opts.dryRun = false) :
    (∀ fs : Fs, (loadLastRunState env fs).1 = none →
      (rollback env opts fs).fs = fs ∧ (rollback env opts fs).ok = false)
    ∧ (∀ (fs : Fs) (st : LastRun), (loadLastRunState env fs).1 = some st →
        (rollback env opts fs).ok = true
        ∧ lookupF (rollback env opts fs).fs (lastRunPath env) = none
        ∧ (rollback env opts (rollback env opts fs).fs).fs = (rollback env opts fs).fs
        ∧ (rollback env opts (rollback env opts fs).fs).ok = false)
    ∧ (∀ (es : List SymlinkEntry) (fs : Fs) (log : List LogMsg) (p : String),
        lookupF (removeLinksFold env opts es fs log).1 p
          = if p ∈ es.map (fun e => e.target) then none else lookupF fs p)
    ∧ (∀ (bs1 : List BackupEntry) (b : BackupEntry) (bs2 : List BackupEntry)
        (fs : Fs) (log : List LogMsg),
        lookupF (restoreBackupsFold env opts bs1 fs log).1 b.backup = none →
        (restoreBackupsFold env opts (bs1 ++ b :: bs2) fs log).1
          = (restoreBackupsFold env opts (bs1 ++ bs2) fs log).1) := by
  refine ⟨fun fs h => rollback_no_state env opts fs h, ?_,
    fun es fs log p => removeLinksFold_lookup env opts hdr es fs log p,
    fun bs1 b bs2 fs log hm =>
      restoreBackupsFold_skip_missing env opts hdr bs1 b bs2 fs log hm⟩
  intro fs st h
  have hres : rollback env opts fs
      = ⟨removeF (restoreBackupsFold env opts st.backups
            (removeLinksFold env opts st.symlinks fs
              ((loadLastRunState env fs).2
                ++ [LogMsg.info ("Last run: " ++ st.command ++ " at " ++ st.timestamp)])).1
            (removeLinksFold env opts st.symlinks fs
              ((loadLastRunState env fs).2
                ++ [LogMsg.info ("Last run: " ++ st.command ++ " at " ++ st.timestamp)])).2).1
          (lastRunPath env),
        (restoreBackupsFold env opts st.backups
            (removeLinksFold env opts st.symlinks fs
              ((loadLastRunState env fs).2
                ++ [LogMsg.info ("Last run: " ++ st.command ++ " at " ++ st.timestamp)])).1
            (removeLinksFold env opts st.symlinks fs
              ((loadLastRunState env fs).2
                ++ [LogMsg.info ("Last run: " ++ st.command ++ " at " ++ st.timestamp)])).2).2
          ++ [LogMsg.success "Rollback complete!"], true⟩ := by
    unfold rollback
    dsimp only
    rw [h]
    simp [hdr]
  have hnone : lookupF (rollback env opts fs).fs (lastRunPath env) = none := by
    rw [hres]
    simp [lookupF_removeF]
  have hload2 : (loadLastRunState env (rollback env opts fs).fs).1 = none := by
    rw [loadLastRunState_absent env _ hnone]
  have hsecond := rollback_no_state env opts (rollback env opts fs).fs hload2
  exact ⟨by rw [hres], hnone, hsecond.1, hsecond.2⟩

/-- C5 witness: the concrete run state `lrT` over `fsC5`, whose first
recorded backup file is absent: rollback succeeds, deletes the run-state
file, and a second rollback fails without further change. -/
theorem c5_witness :
    (loadLastRunState envT fsC5).1 = some lrT
    ∧ (rollback envT optsNI fsC5).ok = true
    ∧ lookupF (rollback envT optsNI fsC5).fs (lastRunPath envT) = none
    ∧ (rollback envT optsNI (rollback envT optsNI fsC5).fs).fs
      = (rollback envT optsNI fsC5).fs
    ∧ (rollback envT optsNI (rollback envT optsNI fsC5).fs).ok = false := by
  have h := (c5_rollback_contract envT optsNI rfl).2.1 fsC5 lrT rfl
  exact ⟨rfl, h.1, h.2.1, h.2.2.1, h.2.2.2⟩

/-! ## C10 — corrupted run state -/

/-- C10: when the run-state file exists but its content is not
parseable, `loadLastRunState` warns and returns `null` instead of
raising, so `rollback` treats the corrupted state exactly like an absent
one: it reports no previous run state, returns failure, and neither
restores anything nor deletes the corrupted file. -/
theorem c10_corrupt_state_like_absent (env : Env) (opts : InstallOptions) (fs : Fs)
    (h : lookupF fs (lastRunPath env) = some (.file .garbage)) :
    (loadLastRunState env fs).1 = none
    ∧ (loadLastRunState env fs).2 = [LogMsg.warn "Failed to parse last run state"]
    ∧ (rollback env opts fs).fs = fs
    ∧ (rollback env opts fs).ok = false := by
  have hload : loadLastRunState env fs
      = (none, [LogMsg.warn "Failed to parse last run state"]) := by
    unfold loadLastRunState readFileData
    rw [h]
  have hroll := rollback_no_state env opts fs (by rw [hload])
  exact ⟨by rw [hload], by rw [hload], hroll.1, hroll.2⟩

/-- C10 witness: a garbage run-state file over `fsC10`. -/
theorem c10_witness :
    (loadLastRunState envT fsC10).1 = none
    ∧ (rollback envT optsNI fsC10).fs = fsC10
    ∧ (rollback envT optsNI fsC10).ok = false := by
  have h := c10_corrupt_state_like_absent envT optsNI fsC10 rfl
  exact ⟨h.1, h.2.2.1, h.2.2.2⟩

/-! ## C9 — backup naming round-trip -/

/-- Decimal digit characters have the expected class and value. -/
theorem digitCharRaw_spec :
    ∀ m, m < 10 → isDigitCh (digitCharRaw m) = true ∧ digitVal (digitCharRaw m) = m := by
  decide

/-- Folding one more digit. -/
theorem digitsToNat_append_one (l : List Char) (c : Char) :
    digitsToNat (l ++ [c]) = 10 * digitsToNat l + digitVal c := by
  unfold digitsToNat
  rw [List.foldl_append]
  simp [List.foldl]
  ring

/-- The fuel-driven rendering is a nonempty all-digit list that parses
back to its input. -/
theorem natDigitsAux_spec :
    ∀ (fuel n : Nat), n < fuel →
      natDigitsAux fuel n ≠ []
      ∧ (∀ c ∈ natDigitsAux fuel n, isDigitCh c = true)
      ∧ digitsToNat (natDigitsAux fuel n) = n
  | 0, n, h => absurd h (Nat.not_lt_zero n)
  | fuel + 1, n, h => by
    by_cases hn : n < 10
    · unfold natDigitsAux
      rw [if_pos hn]
      refine ⟨by simp, ?_, ?_⟩
      · intro c hc
        rw [List.mem_singleton] at hc
        rw [hc]
        exact (digitCharRaw_spec n hn).1
      · show digitsToNat ([] ++ [digitCharRaw n]) = n
        rw [digitsToNat_append_one]
        simp [digitsToNat, (digitCharRaw_spec n hn).2]
    · have hdiv : n / 10 < fuel := by
        have h1 : n / 10 < n := Nat.div_lt_self (by omega) (by omega)
        omega
      have ih := natDigitsAux_spec fuel (n / 10) hdiv
      unfold natDigitsAux
      rw [if_neg hn]
      refine ⟨by simp, ?_, ?_⟩
      · intro c hc
        rcases List.mem_append.mp hc with hc | hc
        · exact ih.2.1 c hc
        · rw [List.mem_singleton] at hc
          rw [hc]
          exact (digitCharRaw_spec (n % 10) (Nat.mod_lt n (by omega))).1
      · rw [digitsToNat_append_one, ih.2.2,
          (digitCharRaw_spec (n % 10) (Nat.mod_lt n (by omega))).2]
        exact Nat.div_add_mod n 10

/-- `takeWhile` and `dropWhile` split an append at the first failing
element. -/
theorem takeWhile_dropWhile_append_stop (f : Char → Bool) :
    ∀ (l1 : List Char) (c : Char) (l2 : List Char),
      (∀ a ∈ l1, f a = true) → f c = false →
      (l1 ++ c :: l2).takeWhile f = l1 ∧ (l1 ++ c :: l2).dropWhile f = c :: l2
  | [], c, l2, _, hc => by
    simp [List.takeWhile, List.dropWhile, hc]
  | a :: l1, c, l2, h, hc => by
    have ha : f a = true := h a (List.mem_cons_self a l1)
    have ih := takeWhile_dropWhile_append_stop f l1 c l2
      (fun b hb => h b (List.mem_cons_of_mem a hb)) hc
    simp [List.takeWhile, List.dropWhile, ha, ih.1, ih.2]

/-- A list is a boolean prefix of itself followed by anything. -/
theorem listPrefixOf_append_self :
    ∀ l1 l2 : List Char, listPrefixOf l1 (l1 ++ l2) = true
  | [], _ => rfl
  | a :: l1, l2 => by
    simp [listPrefixOf, listPrefixOf_append_self l1 l2]

/-- Parsing inverts naming: character-list level. -/
theorem parseBackupChars_roundtrip (pd : List Char) (t : Nat)
    (hne : pd ≠ []) (hlt : ∀ c ∈ pd, isLineTerm c = false) :
    parseBackupChars (pd ++ (".backup.".data ++ natDigits t)) = some (pd, t) := by
  have hd : natDigits t ≠ []
      ∧ (∀ c ∈ natDigits t, isDigitCh c = true)
      ∧ digitsToNat (natDigits t) = t :=
    natDigitsAux_spec (t + 1) t (Nat.lt_succ_self t)
  have hsplit : (pd ++ (".backup.".data ++ natDigits t)).reverse
      = (natDigits t).reverse ++ ('.' :: (".backup".data.reverse ++ pd.reverse)) := by
    rw [List.reverse_append, List.reverse_append]
    have h8 : (".backup.".data : List Char).reverse
        = '.' :: ".backup".data.reverse := by decide
    rw [h8]
    simp
  have htake := takeWhile_dropWhile_append_stop isDigitCh (natDigits t).reverse '.'
    (".backup".data.reverse ++ pd.reverse)
    (fun a ha => hd.2.1 a (List.mem_reverse.mp ha)) (by decide)
  unfold parseBackupChars
  rw [hsplit]
  dsimp only
  rw [htake.1, htake.2]
  have hdig : ((natDigits t).reverse.isEmpty) = false := by
    rcases hcase : (natDigits t).reverse with _ | ⟨c, cs⟩
    · exact absurd (by simpa using hcase) hd.1
    · rfl
  rw [hdig]
  have hpre : listPrefixOf (".backup.".data.reverse)
      ('.' :: (".backup".data.reverse ++ pd.reverse)) = true := by
    have h8 : (".backup.".data : List Char).reverse
        = '.' :: ".backup".data.reverse := by decide
    have hps := listPrefixOf_append_self (".backup.".data.reverse) pd.reverse
    rw [h8] at hps
    simpa using hps
  simp only [Bool.false_eq_true, reduceIte, hpre]
  have hdrop : ('.' :: (".backup".data.reverse ++ pd.reverse)).drop 8 = pd.reverse := by
    have h8 : ('.' :: (".backup".data.reverse ++ pd.reverse))
        = ('.' :: ".backup".data.reverse) ++ pd.reverse := by simp
    rw [h8]
    have hlen : ('.' :: (".backup".data.reverse : List Char)).length = 8 := by decide
    rw [← hlen]
    exact List.drop_left _ _
  rw [hdrop]
  have hne2 : (pd.reverse.isEmpty) = false := by
    rcases hcase : pd.reverse with _ | ⟨c, cs⟩
    · exact absurd (by simpa using hcase) hne
    · rfl
  rw [hne2]
  have hany : pd.reverse.any isLineTerm = false := by
    rw [List.any_reverse]
    rw [← Bool.not_eq_true]
    intro hc
    rcases List.any_eq_true.mp hc with ⟨c, hc1, hc2⟩
    rw [hlt c hc1] at hc2
    cases hc2
  simp only [hany, Bool.false_eq_true, reduceIte]
  rw [List.reverse_reverse, List.reverse_reverse, hd.2.2]

/-- C9 (amended): for every nonempty original path `p` containing no
line-terminator character and every timestamp `t`, the backup name is
exactly `p ++ ".backup." ++ <decimal t>`, parsing it with the backup
pattern recovers exactly `(p, t)`, and a directory scan containing that
name reconstructs the `BackupEntry` with its original path and
timestamp, independent of any run state. -/
theorem c9_backup_name_roundtrip (p : String) (t : Nat)
    (hne : p.data ≠ []) (hlt : ∀ c ∈ p.data, isLineTerm c = false) :
    backupName p t = ⟨p.data ++ (".backup.".data ++ natDigits t)⟩
    ∧ parseBackup (backupName p t) = some (p, t)
    ∧ ∀ (dir : String) (names : List String), backupName p t ∈ names →
        (⟨joinResolve dir p, joinResolve dir (backupName p t), t⟩ : BackupEntry)
          ∈ findBackupsInDir dir names := by
  have hdata : (backupName p t).data = p.data ++ (".backup.".data ++ natDigits t) := by
    unfold backupName natStr
    rw [String.data_append, String.data_append]
    simp [List.append_assoc]
  have hname : backupName p t = ⟨p.data ++ (".backup.".data ++ natDigits t)⟩ := by
    have heta : backupName p t = ⟨(backupName p t).data⟩ := rfl
    rw [heta, hdata]
  have hparse : parseBackup (backupName p t) = some (p, t) := by
    unfold parseBackup
    rw [hdata, parseBackupChars_roundtrip p.data t hne hlt]
    rfl
  refine ⟨hname, hparse, ?_⟩
  intro dir names hmem
  refine List.mem_filterMap.mpr ⟨backupName p t, hmem, ?_⟩
  rw [hparse]
  rfl

/-- C9 counterexample: a legal POSIX path containing a newline. The
backup `createBackup` would write for it is named as specified, but the
backup pattern — whose `(.+)` group cannot match a line terminator —
fails to parse it, so this backup is not reconstructible by directory
scan, refuting the claim's "for every original file path". -/
theorem c9_counterexample :
    backupName "a\nb" 1 = "a\nb.backup.1"
    ∧ parseBackup "a\nb.backup.1" = none
    ∧ parseBackup (backupName "a\nb" 1) ≠ some ("a\nb", 1) := by
  refine ⟨rfl, rfl, ?_⟩
  decide

/-- C9 witness: a concrete absolute path and timestamp round-trip. -/
theorem c9_witness :
    ("/home/u/.zshrc".data ≠ [] ∧ ∀ c ∈ "/home/u/.zshrc".data, isLineTerm c = false)
    ∧ parseBackup (backupName "/home/u/.zshrc" 123) = some ("/home/u/.zshrc", 123)
    ∧ (⟨joinResolve "/home/u" "/home/u/.zshrc",
        joinResolve "/home/u" (backupName "/home/u/.zshrc" 123), 123⟩ : BackupEntry)
      ∈ findBackupsInDir "/home/u" [backupName "/home/u/.zshrc" 123] := by
  have h := c9_backup_name_roundtrip "/home/u/.zshrc" 123 (by decide) (by decide)
  exact ⟨⟨by decide, by decide⟩, h.2.1,
    h.2.2 "/home/u" [backupName "/home/u/.zshrc" 123] (List.mem_singleton.mpr rfl)⟩

end Paw
